import Mathlib

/-!
# Verification of the Johnston RDS stereo-geometry core

Shallow embedding of the two core functions of `src/JohnstonRDSFINAL.py`:

* `project_to_screen` (source lines 127-138): binocular pinhole projection of a
  point at lateral offset `x_cm` and depth `z_cm` onto a screen at
  `distance_cm`, for eyes separated by `iod_cm`.  Returns the five-tuple
  `(xL, xR, disp_cm, disp_rad, disp_formula)` exactly as the source does.

* `generate_rds` (source lines 140-174): rejection sampling of a dot field.
  The source draws random arrays with numpy; here the random source is an
  explicit stream of `(theta, u)` pairs, and the irrational primitives
  `np.sqrt`, `np.cos`, `np.sin` are abstracted as function parameters
  `sq`, `co`, `si` (every theorem below holds for arbitrary such functions,
  hence in particular for the true square root / cosine / sine).  The
  unbounded `while` loop of the source is modelled with an explicit `fuel`
  counter: `none` means the loop did not finish within `fuel` iterations.

All machine reals are modelled as exact rationals `ℚ`; the floating-point
expression `np.ceil(needed * 1.6)` equals `⌈8·needed/5⌉` for every batch size
reachable here, which is the natural-number expression `(8*needed + 4) / 5`.
-/

namespace JohnstonRDS

/-- Embedding of `project_to_screen(x_cm, z_cm, distance_cm, iod_cm)`
(source lines 127-138).  `np.maximum(a, 0.5)` is `max a 0.5`,
`np.clip(z, None, d - 0.5)` is `min z (d - 0.5)`.  The result tuple is
`(xL, xR, disp_cm, disp_rad, disp_formula)`. -/
def project_to_screen (x_cm z_cm distance_cm iod_cm : ℚ) : ℚ × ℚ × ℚ × ℚ × ℚ :=
  let half := iod_cm / 2
  let depth_from_eye := max (distance_cm - z_cm) 0.5
  let scale := distance_cm / depth_from_eye
  let xL := -half + scale * (x_cm + half)
  let xR := half + scale * (x_cm - half)
  let disp_cm := xR - xL
  let disp_rad := disp_cm / distance_cm
  let safe_z := min z_cm (distance_cm - 0.5)
  let disp_formula := iod_cm * safe_z / (distance_cm ^ 2 - safe_z ^ 2)
  (xL, xR, disp_cm, disp_rad, disp_formula)

/-- The three divisor expressions evaluated by `project_to_screen`, in source
order: `depth_from_eye` (divisor of `scale`, line 131), `distance_cm`
(divisor of `disp_rad`, line 135), and `distance_cm² - safe_z²` (divisor of
`disp_formula`, line 137).  "No division by zero" for a call of
`project_to_screen` means that all three components are nonzero. -/
def project_divisors (z_cm distance_cm : ℚ) : ℚ × ℚ × ℚ :=
  (max (distance_cm - z_cm) 0.5, distance_cm,
    distance_cm ^ 2 - (min z_cm (distance_cm - 0.5)) ^ 2)

/-- One processed candidate dot: per-eye screen coordinates (after the
haploscope shift), the shared vertical coordinate, and the three disparity
metrics returned by `project_to_screen` (which the source computes *before*
the haploscope shift is applied). -/
structure DotSample where
  xL : ℚ
  xR : ℚ
  y : ℚ
  dcm : ℚ
  dang : ℚ
  dfor : ℚ
deriving DecidableEq

/-- The six arrays returned by `generate_rds` (source line 174):
`xL, xR, y, dcm, dang, dfor`. -/
structure RDSField where
  xL : List ℚ
  xR : List ℚ
  y : List ℚ
  dcm : List ℚ
  dang : List ℚ
  dfor : List ℚ
deriving DecidableEq

/-- Polar disk sampling of one candidate (source lines 149-151): from one
random pair `tu = (theta, u)` the source computes `r = aperture * sqrt u` and
the point `(r * cos theta, r * sin theta)`.  `sq`, `co`, `si` are the
abstracted `np.sqrt`, `np.cos`, `np.sin`. -/
def candidate_point (sq co si : ℚ → ℚ) (aperture : ℚ) (tu : ℚ × ℚ) : ℚ × ℚ :=
  let r := aperture * sq tu.2
  (r * co tu.1, r * si tu.1)

/-- Surface height of one candidate (source lines 154-158): points inside the
footprint ellipse `(x/a)² + (y/y_semi)² ≤ 1` get the half-cylinder profile
`b * sqrt (clip (1 - (x/a)²) 0 _)`, points outside get `0`
(`np.clip (w, 0, None)` is `max w 0`). -/
def surface_z (sq : ℚ → ℚ) (a b y_semi x y : ℚ) : ℚ :=
  if (x / a) ^ 2 + (y / y_semi) ^ 2 ≤ 1 then b * sq (max (1 - (x / a) ^ 2) 0)
  else 0

/-- Full per-candidate pipeline of one loop iteration (source lines 151-163):
sample the point, compute its surface height, project it, then apply the
haploscope calibration `xL -= haplo_offset_cm`, `xR += haplo_offset_cm`.
In the source `haplo_offset_cm` is the module-level global of line 59, not a
parameter of `generate_rds`; it is threaded through here explicitly as the
session state the generator reads. -/
def process_candidate (sq co si : ℚ → ℚ)
    (a b dist iod y_semi aperture haplo_offset_cm : ℚ) (tu : ℚ × ℚ) :
    DotSample :=
  let p := candidate_point sq co si aperture tu
  let z := surface_z sq a b y_semi p.1 p.2
  let pr := project_to_screen p.1 z dist iod
  { xL := pr.1 - haplo_offset_cm
    xR := pr.2.1 + haplo_offset_cm
    y := p.2
    dcm := pr.2.2.1
    dang := pr.2.2.2.1
    dfor := pr.2.2.2.2 }

/-- The keep mask of source line 166:
`(np.abs xL <= half_width) & (np.abs xR <= half_width)`. -/
def keep_dot (half_width : ℚ) (d : DotSample) : Bool :=
  decide (|d.xL| ≤ half_width) && decide (|d.xR| ≤ half_width)

/-- Batch size of source line 148, `int (np.ceil (needed * 1.6))`: for the
natural numbers reachable here the float expression equals `⌈8·needed/5⌉`,
which is `(8 * needed + 4) / 5` in natural division. -/
def batch_size (needed : ℕ) : ℕ :=
  (8 * needed + 4) / 5

/-- The next `count` random pairs drawn from the stream starting at
position `pos`. -/
def draw_batch (stream : ℕ → ℚ × ℚ) (pos count : ℕ) : List (ℚ × ℚ) :=
  (List.range count).map fun i => stream (pos + i)

/-- One iteration body (source lines 149-168): process every candidate of the
batch and keep those visible to both eyes. -/
def process_batch (sq co si : ℚ → ℚ)
    (a b dist iod y_semi aperture half_width haplo_offset_cm : ℚ)
    (tus : List (ℚ × ℚ)) : List DotSample :=
  (tus.map
      (process_candidate sq co si a b dist iod y_semi aperture
        haplo_offset_cm)).filter
    (keep_dot half_width)

/-- The `while needed > 0` loop of source lines 147-170, with an explicit
`fuel` bound on the number of loop iterations (the source loop is unbounded;
`none` means it did not finish within `fuel` iterations).  `pos` is the
position in the random stream and `acc` the dots collected so far. -/
def gen_loop (sq co si : ℚ → ℚ) (stream : ℕ → ℚ × ℚ)
    (a b dist iod : ℚ) (n : ℕ) (y_semi aperture half_width haplo_offset_cm : ℚ) :
    ℕ → ℕ → List DotSample → Option (List DotSample)
  | 0, _, _ => none
  | fuel + 1, pos, acc =>
    if n ≤ acc.length then some acc
    else
      let bsz := batch_size (n - acc.length)
      let kept := process_batch sq co si a b dist iod y_semi aperture
        half_width haplo_offset_cm (draw_batch stream pos bsz)
      gen_loop sq co si stream a b dist iod n y_semi aperture half_width
        haplo_offset_cm fuel (pos + bsz) (acc ++ kept)

/-- Embedding of `generate_rds (a, b, dist, iod, n, y_semi, aperture, width)`
(source lines 140-174).  `half_width = width / 2` (line 142); the collected
dots are concatenated and every array truncated to its first `n` entries
(lines 172-173).  The extra leading parameters model, in order, the
irrational primitives (`sq`, `co`, `si`), the process-wide random source
(`stream`), and the loop bound (`fuel`); the trailing `haplo_offset_cm`
models the module-level global of source line 59.

This definition models the value returned on the *successful* path, which
is every call with `n ≥ 1` (each executed iteration appends one chunk per
buffer, so the concatenations of line 172 succeed).  For `n = 0` the source
instead raises `ValueError` at line 172 (`np.concatenate` of the
still-empty chunk lists); that error path is modelled by
`generate_rds_outcome` below, built on the chunk-level loop
`gen_loop_chunks`. -/
def generate_rds (sq co si : ℚ → ℚ) (stream : ℕ → ℚ × ℚ) (fuel : ℕ)
    (a b dist iod : ℚ) (n : ℕ) (y_semi aperture width haplo_offset_cm : ℚ) :
    Option RDSField :=
  (gen_loop sq co si stream a b dist iod n y_semi aperture (width / 2)
      haplo_offset_cm fuel 0 []).map fun dots =>
    { xL := (dots.map DotSample.xL).take n
      xR := (dots.map DotSample.xR).take n
      y := (dots.map DotSample.y).take n
      dcm := (dots.map DotSample.dcm).take n
      dang := (dots.map DotSample.dang).take n
      dfor := (dots.map DotSample.dfor).take n }

/-- Chunk-level version of the sampling loop: the source keeps a Python
list of per-iteration kept chunks (`xL_all.append(xL[keep])`, line 167) and
re-computes `needed = n - sum(len(chunk) for chunk in xL_all)` (line 170).
This loop returns that list of chunks — one entry per executed iteration —
instead of their concatenation; `gen_loop` is its flattening (proved below
as `gen_loop_eq_flatten_chunks`). -/
def gen_loop_chunks (sq co si : ℚ → ℚ) (stream : ℕ → ℚ × ℚ)
    (a b dist iod : ℚ) (n : ℕ) (y_semi aperture half_width haplo_offset_cm : ℚ) :
    ℕ → ℕ → List (List DotSample) → Option (List (List DotSample))
  | 0, _, _ => none
  | fuel + 1, pos, chunks =>
    if n ≤ (chunks.map List.length).sum then some chunks
    else
      let bsz := batch_size (n - (chunks.map List.length).sum)
      let kept := process_batch sq co si a b dist iod y_semi aperture
        half_width haplo_offset_cm (draw_batch stream pos bsz)
      gen_loop_chunks sq co si stream a b dist iod n y_semi aperture
        half_width haplo_offset_cm fuel (pos + bsz) (chunks ++ [kept])

/-- `np.concatenate` applied to a list of arrays (source line 172): raises
`ValueError: need at least one array to concatenate` when the list is empty
(modelled as `none`), otherwise concatenates. -/
def np_concatenate (chunks : List (List ℚ)) : Option (List ℚ) :=
  match chunks with
  | [] => none
  | _ => some chunks.flatten

/-- Result of one full `generate_rds` call of the source: it either returns
the six arrays or raises.  The only raise on the core path is the
`ValueError` of `np.concatenate([])` at source line 172, reached exactly
when the `while` body never ran and the chunk lists are still empty. -/
inductive RDSOutcome where
  | valueError : RDSOutcome
  | returns : RDSField → RDSOutcome
deriving DecidableEq

/-- Full call/return behaviour of `generate_rds`, including the error path
of source line 172: run the loop at chunk level, then concatenate each of
the six chunk lists with `np_concatenate` and truncate to `n` (lines
172-173).  All six chunk lists have one chunk per executed iteration, so
either all six concatenations succeed or all are empty and the first
(`xL`, line 172) raises `ValueError`.  `none` still means the loop itself
never finished. -/
def generate_rds_outcome (sq co si : ℚ → ℚ) (stream : ℕ → ℚ × ℚ) (fuel : ℕ)
    (a b dist iod : ℚ) (n : ℕ) (y_semi aperture width haplo_offset_cm : ℚ) :
    Option RDSOutcome :=
  (gen_loop_chunks sq co si stream a b dist iod n y_semi aperture (width / 2)
      haplo_offset_cm fuel 0 []).map fun chunks =>
    match np_concatenate (chunks.map (List.map DotSample.xL)),
        np_concatenate (chunks.map (List.map DotSample.xR)),
        np_concatenate (chunks.map (List.map DotSample.y)),
        np_concatenate (chunks.map (List.map DotSample.dcm)),
        np_concatenate (chunks.map (List.map DotSample.dang)),
        np_concatenate (chunks.map (List.map DotSample.dfor)) with
    | some xLs, some xRs, some ys, some dcms, some dangs, some dfors =>
        RDSOutcome.returns
          { xL := xLs.take n, xR := xRs.take n, y := ys.take n,
            dcm := dcms.take n, dang := dangs.take n, dfor := dfors.take n }
    | _, _, _, _, _, _ => RDSOutcome.valueError

/-- Both per-eye coordinate arrays of a returned field lie within the half
display width: the monocular-ghost prevention invariant. -/
def bounded_field (hw : ℚ) (F : RDSField) : Prop :=
  (∀ q ∈ F.xL, |q| ≤ hw) ∧ ∀ q ∈ F.xR, |q| ≤ hw

/-- The concrete configuration refuting C8: the experiment's parameters with
an unsatisfiable display width, on the constant stream; `generate_rds` is
`none` — it has not returned — after *every* number of loop iterations.  No
configuration error is ever raised: the source has no batch-attempt bound. -/
def rds_unsatisfiable_bounds_never_returns : Prop :=
  ∀ fuel, generate_rds id (fun _ => 1) (fun _ => 0) (fun _ => (0, 0)) fuel
    (11 / 2) (199 / 20) 85 (13 / 2) 1500 6 10 (-1) 0 = none

/-- Closed form of the returned `disp_cm` component: the lateral offset `x`
cancels and `disp_cm = iod · (1 - scale)`. -/
lemma disp_cm_eq (x z D iod : ℚ) :
    (project_to_screen x z D iod).2.2.1 = iod * (1 - D / max (D - z) 0.5) := by
  simp only [project_to_screen]
  ring

/-- At zero surface depth and viewing distance at least the 0.5 cm clamp
margin, the projection is the identity on both eyes and all three disparity
outputs vanish. -/
lemma project_to_screen_zero (x D iod : ℚ) (hD : 1 / 2 ≤ D) :
    project_to_screen x 0 D iod = (x, x, 0, 0, 0) := by
  have hD0 : (0 : ℚ) < D := by linarith
  have hmax : max (D - 0) (0.5 : ℚ) = D := by
    rw [sub_zero]
    exact max_eq_left (by norm_num; linarith)
  have hmin : min (0 : ℚ) (D - 0.5) = 0 := min_eq_left (by norm_num; linarith)
  simp only [project_to_screen, hmax, hmin, Prod.mk.injEq]
  rw [div_self hD0.ne']
  norm_num

/-- **C3 (counterexample).**  The claim asserts
`project(x, 0, D, iod) = (x, x, 0, 0, 0)` for *every* `D > 0`, but at
`D = 3/10 < 0.5` the clamp `depth_from_eye = max(D - z, 0.5) = 0.5` makes the
perspective scale `D/0.5 ≠ 1`, so the projection of `x = 0` at zero depth is
not `(0, 0, 0, 0, 0)`. -/
theorem claim_C3_counterexample :
    (0 : ℚ) < 3 / 10 ∧ (0 : ℚ) < 1 ∧
      (project_to_screen 0 0 (3 / 10) 1).1 ≠ 0 := by
  refine ⟨by norm_num, by norm_num, ?_⟩
  simp only [project_to_screen]
  norm_num [max_def]

/-- **C3 (amended).**  For every `x`, every `iod > 0` and every viewing
distance `D ≥ 0.5` (so that the 0.5 cm numerical clamp is inactive at zero
depth), `project_to_screen x 0 D iod = (x, x, 0, 0, 0)`: zero surface depth
yields identical left/right screen coordinates and all three disparity
metrics are exactly zero. -/
theorem claim_C3_zero_depth (x D iod : ℚ) (hD : 1 / 2 ≤ D) (_hiod : 0 < iod) :
    project_to_screen x 0 D iod = (x, x, 0, 0, 0) :=
  project_to_screen_zero x D iod hD

/-- Witness for `claim_C3_zero_depth` at `x = 2`, `D = 85`, `iod = 13/2`. -/
theorem claim_C3_zero_depth_witness :
    (1 : ℚ) / 2 ≤ 85 ∧ (0 : ℚ) < 13 / 2 ∧
      project_to_screen 2 0 85 (13 / 2) = (2, 2, 0, 0, 0) :=
  ⟨by norm_num, by norm_num,
    claim_C3_zero_depth 2 85 (13 / 2) (by norm_num) (by norm_num)⟩

/-- **C2 (counterexample).**  The claim asserts `disparity_cm > 0` for every
`0 < z < D` with `D, iod > 0`.  At the experiment's own geometry
`D = 85`, `iod = 13/2`, `z = 5` the code returns
`disp_cm = iod·(1 - 85/80) = -13/32 < 0`: a point nearer than the screen has
*crossed* (negative) disparity under the source's `xR - xL` convention. -/
theorem claim_C2_counterexample :
    (0 : ℚ) < 85 ∧ (0 : ℚ) < 13 / 2 ∧ (0 : ℚ) < 5 ∧ (5 : ℚ) < 85 ∧
      (project_to_screen 0 5 85 (13 / 2)).2.2.1 < 0 := by
  refine ⟨by norm_num, by norm_num, by norm_num, by norm_num, ?_⟩
  rw [disp_cm_eq]
  norm_num [max_def]

/-- **C2 (amended).**  For `D > 0.5`, `iod > 0` and `0 < z₁ ≤ z₂ < D`, the
returned `disparity_cm` is *negative* (crossed disparity: the surface bulges
toward the observer) and monotonically *decreasing* in `z`:
`disp_cm(z₂) ≤ disp_cm(z₁) < 0`.  (The decrease is non-strict because the
clamp `depth_from_eye ≥ 0.5` freezes the value once `z ≥ D - 0.5`.) -/
theorem claim_C2_disparity_negative_decreasing (x z₁ z₂ D iod : ℚ)
    (hD : 1 / 2 < D) (hiod : 0 < iod) (hz₁ : 0 < z₁) (h₁₂ : z₁ ≤ z₂)
    (hz₂ : z₂ < D) :
    (project_to_screen x z₁ D iod).2.2.1 < 0 ∧
      (project_to_screen x z₂ D iod).2.2.1 ≤ (project_to_screen x z₁ D iod).2.2.1 := by
  have hD0 : (0 : ℚ) < D := by linarith
  have hmd : ∀ z : ℚ, (0 : ℚ) < max (D - z) 0.5 :=
    fun z => lt_max_of_lt_right (by norm_num)
  constructor
  · rw [disp_cm_eq]
    have h1 : max (D - z₁) (0.5 : ℚ) < D := by
      apply max_lt (by linarith)
      norm_num
      linarith
    have h2 : (1 : ℚ) < D / max (D - z₁) 0.5 := (one_lt_div (hmd z₁)).2 h1
    have h3 : 1 - D / max (D - z₁) 0.5 < 0 := by linarith
    exact mul_neg_of_pos_of_neg hiod h3
  · rw [disp_cm_eq, disp_cm_eq]
    have hmax : max (D - z₂) (0.5 : ℚ) ≤ max (D - z₁) 0.5 :=
      max_le_max (by linarith) le_rfl
    have hmono : D / max (D - z₁) 0.5 ≤ D / max (D - z₂) 0.5 := by
      rw [div_le_div_iff₀ (hmd z₁) (hmd z₂)]
      exact mul_le_mul_of_nonneg_left hmax hD0.le
    have : 1 - D / max (D - z₂) 0.5 ≤ 1 - D / max (D - z₁) 0.5 := by linarith
    exact mul_le_mul_of_nonneg_left this hiod.le

/-- Witness for `claim_C2_disparity_negative_decreasing` at
`x = 0`, `z₁ = 5`, `z₂ = 9`, `D = 85`, `iod = 13/2`. -/
theorem claim_C2_disparity_negative_decreasing_witness :
    (1 : ℚ) / 2 < 85 ∧ (0 : ℚ) < 13 / 2 ∧ (0 : ℚ) < 5 ∧ (5 : ℚ) ≤ 9 ∧
      (9 : ℚ) < 85 ∧
      ((project_to_screen 0 5 85 (13 / 2)).2.2.1 < 0 ∧
        (project_to_screen 0 9 85 (13 / 2)).2.2.1 ≤
          (project_to_screen 0 5 85 (13 / 2)).2.2.1) :=
  ⟨by norm_num, by norm_num, by norm_num, by norm_num, by norm_num,
    claim_C2_disparity_negative_decreasing 0 5 9 85 (13 / 2) (by norm_num)
      (by norm_num) (by norm_num) (by norm_num) (by norm_num)⟩

/-- **C5 (counterexample).**  The claim asserts that for small `z/D` (within
the experiment's ranges, `D = 85`, `z ≤ 9.95`) the returned `disp_rad` and
`disp_formula` agree within 1 % relative tolerance.  Already at `z = 1`
(`z/D ≈ 0.012`) they have *opposite signs*, so the relative difference is
about 200 %, not 1 %. -/
theorem claim_C5_counterexample :
    (0 : ℚ) < 85 ∧ (0 : ℚ) < 13 / 2 ∧ (0 : ℚ) < 1 ∧ (1 : ℚ) ≤ 199 / 20 ∧
      ¬ |(project_to_screen 0 1 85 (13 / 2)).2.2.2.1 -
            (project_to_screen 0 1 85 (13 / 2)).2.2.2.2| ≤
          1 / 100 * |(project_to_screen 0 1 85 (13 / 2)).2.2.2.2| := by
  refine ⟨by norm_num, by norm_num, by norm_num, by norm_num, ?_⟩
  simp only [project_to_screen]
  norm_num [max_def, min_def, abs_eq_max_neg]

/-- **C5 (amended).**  In the clamp-free region `0 ≤ z ≤ D - 0.5` the two
disparity-angle outputs satisfy the exact identity
`disp_rad = -(1 + z/D) · disp_formula`: they agree in *magnitude* up to
relative error exactly `z/D` (about 11.7 % at the experiment's largest depth
`z = 9.95`, `D = 85`, and within 1 % only for `z/D ≤ 0.01`), but carry
*opposite signs*, so as returned they never agree within 1 % for `z > 0`. -/
theorem claim_C5_smallangle_vs_formula (x z D iod : ℚ) (hz : 0 ≤ z)
    (hzD : z ≤ D - 1 / 2) :
    (project_to_screen x z D iod).2.2.2.1 =
      -((1 + z / D) * (project_to_screen x z D iod).2.2.2.2) := by
  have hD0 : (0 : ℚ) < D := by linarith
  have hDz : (0 : ℚ) < D - z := by linarith
  have hDpz : (0 : ℚ) < D + z := by linarith
  have hmax : max (D - z) (0.5 : ℚ) = D - z := max_eq_left (by norm_num; linarith)
  have hmin : min z (D - (0.5 : ℚ)) = z := min_eq_left (by norm_num; linarith)
  simp only [project_to_screen, hmax, hmin]
  have hsq : D ^ 2 - z ^ 2 ≠ 0 := by nlinarith
  field_simp
  ring

/-- Witness for `claim_C5_smallangle_vs_formula` at
`x = 0`, `z = 199/20`, `D = 85`, `iod = 13/2`. -/
theorem claim_C5_smallangle_vs_formula_witness :
    (0 : ℚ) ≤ 199 / 20 ∧ (199 : ℚ) / 20 ≤ 85 - 1 / 2 ∧
      (project_to_screen 0 (199 / 20) 85 (13 / 2)).2.2.2.1 =
        -((1 + 199 / 20 / 85) *
          (project_to_screen 0 (199 / 20) 85 (13 / 2)).2.2.2.2) :=
  ⟨by norm_num, by norm_num,
    claim_C5_smallangle_vs_formula 0 (199 / 20) 85 (13 / 2) (by norm_num)
      (by norm_num)⟩

/-- **C9 (counterexample).**  The claim asserts no division by zero for
*every* finite `z < D` with `D, iod > 0`.  At `z = -D` (here `z = -1`,
`D = 1`, `iod = 1`) the clamped `safe_z = min(z, D - 0.5) = -D`, and the
closed-form divisor `D² - safe_z²` is exactly `0`, so
`disp_formula = iod·(-D)/0` divides by zero. -/
theorem claim_C9_counterexample :
    (0 : ℚ) < 1 ∧ (-1 : ℚ) < 1 ∧ (project_divisors (-1) 1).2.2 = 0 := by
  refine ⟨by norm_num, by norm_num, ?_⟩
  simp only [project_divisors]
  norm_num [min_def]

/-- **C9 (amended).**  For `0 ≤ z < D` and `D ≥ 0.5` — the only regime the
generator ever produces, since surface heights satisfy `z ≥ 0` — all three
divisors evaluated by `project_to_screen` (the perspective depth
`max(D - z, 0.5)`, the distance `D`, and the closed-form denominator
`D² - safe_z²`) are nonzero, so no division by zero occurs and, in exact
arithmetic, no NaN can arise. -/
theorem claim_C9_no_division_by_zero (z D : ℚ) (hz : 0 ≤ z) (hzD : z < D)
    (hD : 1 / 2 ≤ D) :
    (project_divisors z D).1 ≠ 0 ∧ (project_divisors z D).2.1 ≠ 0 ∧
      (project_divisors z D).2.2 ≠ 0 := by
  have hD0 : (0 : ℚ) < D := by linarith
  refine ⟨?_, hD0.ne', ?_⟩
  · have : (0 : ℚ) < max (D - z) 0.5 := lt_max_of_lt_right (by norm_num)
    simpa [project_divisors] using this.ne'
  · have h0 : (0 : ℚ) ≤ min z (D - 0.5) := le_min hz (by norm_num; linarith)
    have h1 : min z (D - (0.5 : ℚ)) < D :=
      lt_of_le_of_lt (min_le_left _ _) hzD
    have : (0 : ℚ) < D ^ 2 - (min z (D - 0.5)) ^ 2 := by nlinarith
    simpa [project_divisors] using this.ne'

/-- Witness for `claim_C9_no_division_by_zero` at `z = 199/20`, `D = 85`. -/
theorem claim_C9_no_division_by_zero_witness :
    (0 : ℚ) ≤ 199 / 20 ∧ (199 : ℚ) / 20 < 85 ∧ (1 : ℚ) / 2 ≤ 85 ∧
      ((project_divisors (199 / 20) 85).1 ≠ 0 ∧
        (project_divisors (199 / 20) 85).2.1 ≠ 0 ∧
        (project_divisors (199 / 20) 85).2.2 ≠ 0) :=
  ⟨by norm_num, by norm_num, by norm_num,
    claim_C9_no_division_by_zero (199 / 20) 85 (by norm_num) (by norm_num)
      (by norm_num)⟩

/-- If the sampling loop returns, it has collected at least `n` dots
(the loop guard `needed > 0` has failed). -/
lemma gen_loop_length {sq co si : ℚ → ℚ} {stream : ℕ → ℚ × ℚ}
    {a b dist iod : ℚ} {n : ℕ} {y_semi aperture hw off : ℚ} {fuel pos : ℕ}
    {acc out : List DotSample}
    (h : gen_loop sq co si stream a b dist iod n y_semi aperture hw off fuel
      pos acc = some out) :
    n ≤ out.length := by
  induction fuel generalizing pos acc with
  | zero => simp [gen_loop] at h
  | succ fuel ih =>
    rw [gen_loop] at h
    split at h
    · cases h
      assumption
    · exact ih h

/-- Every dot kept from a batch passes the both-eyes bounds mask and is the
image of one of the batch's random pairs under the candidate pipeline. -/
lemma mem_process_batch {sq co si : ℚ → ℚ}
    {a b dist iod y_semi aperture hw off : ℚ} {tus : List (ℚ × ℚ)}
    {d : DotSample} (hd : d ∈ process_batch sq co si a b dist iod y_semi
      aperture hw off tus) :
    (|d.xL| ≤ hw ∧ |d.xR| ≤ hw) ∧
      ∃ tu, d = process_candidate sq co si a b dist iod y_semi aperture off tu := by
  unfold process_batch at hd
  have h₁ := List.of_mem_filter hd
  have h₂ := List.mem_of_mem_filter hd
  rw [List.mem_map] at h₂
  obtain ⟨tu, _, rfl⟩ := h₂
  refine ⟨?_, tu, rfl⟩
  simpa [keep_dot] using h₁

/-- Every dot in the output of the sampling loop either was in the
accumulator already or is a kept candidate: it passes the bounds mask and
comes from the candidate pipeline. -/
lemma gen_loop_mem {sq co si : ℚ → ℚ} {stream : ℕ → ℚ × ℚ}
    {a b dist iod : ℚ} {n : ℕ} {y_semi aperture hw off : ℚ} {fuel pos : ℕ}
    {acc out : List DotSample} {d : DotSample}
    (h : gen_loop sq co si stream a b dist iod n y_semi aperture hw off fuel
      pos acc = some out) (hd : d ∈ out) :
    d ∈ acc ∨ ((|d.xL| ≤ hw ∧ |d.xR| ≤ hw) ∧
      ∃ tu, d = process_candidate sq co si a b dist iod y_semi aperture off tu) := by
  induction fuel generalizing pos acc with
  | zero => simp [gen_loop] at h
  | succ fuel ih =>
    rw [gen_loop] at h
    split at h
    · cases h
      exact Or.inl hd
    · rcases ih h with hacc | hnew
      · rcases List.mem_append.1 hacc with hold | hkept
        · exact Or.inl hold
        · exact Or.inr (mem_process_batch hkept)
      · exact Or.inr hnew

/-- Unpacking of a successful `generate_rds` call into its loop output. -/
lemma generate_rds_eq_some {sq co si : ℚ → ℚ} {stream : ℕ → ℚ × ℚ}
    {fuel : ℕ} {a b dist iod : ℚ} {n : ℕ} {y_semi aperture width off : ℚ}
    {F : RDSField}
    (h : generate_rds sq co si stream fuel a b dist iod n y_semi aperture
      width off = some F) :
    ∃ out, gen_loop sq co si stream a b dist iod n y_semi aperture (width / 2)
        off fuel 0 [] = some out ∧
      F = { xL := (out.map DotSample.xL).take n
            xR := (out.map DotSample.xR).take n
            y := (out.map DotSample.y).take n
            dcm := (out.map DotSample.dcm).take n
            dang := (out.map DotSample.dang).take n
            dfor := (out.map DotSample.dfor).take n } := by
  unfold generate_rds at h
  rw [Option.map_eq_some'] at h
  obtain ⟨out, hout, hF⟩ := h
  exact ⟨out, hout, hF.symm⟩

/-- **C1.**  Whenever `generate_rds` returns at all, all six returned arrays
have length exactly `n` — never more (each buffer is truncated with `[:n]`),
never fewer (the loop only exits once at least `n` dots are collected). -/
theorem claim_C1_generate_rds_lengths (sq co si : ℚ → ℚ)
    (stream : ℕ → ℚ × ℚ) (fuel : ℕ) (a b dist iod : ℚ) (n : ℕ)
    (y_semi aperture width off : ℚ) (F : RDSField) (_hn : 1 ≤ n)
    (h : generate_rds sq co si stream fuel a b dist iod n y_semi aperture
      width off = some F) :
    F.xL.length = n ∧ F.xR.length = n ∧ F.y.length = n ∧
      F.dcm.length = n ∧ F.dang.length = n ∧ F.dfor.length = n := by
  obtain ⟨out, hout, rfl⟩ := generate_rds_eq_some h
  have hlen : n ≤ out.length := gen_loop_length hout
  simp only [List.length_take, List.length_map]
  omega

/-- **C6.**  Every dot of a returned field satisfies
`|xLeft| ≤ width/2` and `|xRight| ≤ width/2` (coordinates taken *after* the
haploscope offset is applied, exactly as the source filters them on
line 166): no returned dot is visible to only one eye. -/
theorem claim_C6_both_eyes_bounds (sq co si : ℚ → ℚ) (stream : ℕ → ℚ × ℚ)
    (fuel : ℕ) (a b dist iod : ℚ) (n : ℕ) (y_semi aperture width off : ℚ)
    (F : RDSField)
    (h : generate_rds sq co si stream fuel a b dist iod n y_semi aperture
      width off = some F) :
    bounded_field (width / 2) F := by
  obtain ⟨out, hout, rfl⟩ := generate_rds_eq_some h
  have hmem : ∀ d ∈ out, |d.xL| ≤ width / 2 ∧ |d.xR| ≤ width / 2 := by
    intro d hd
    rcases gen_loop_mem hout hd with hacc | hnew
    · simp at hacc
    · exact hnew.1
  constructor
  · intro q hq
    have := List.mem_of_mem_take hq
    rw [List.mem_map] at this
    obtain ⟨d, hd, rfl⟩ := this
    exact (hmem d hd).1
  · intro q hq
    have := List.mem_of_mem_take hq
    rw [List.mem_map] at this
    obtain ⟨d, hd, rfl⟩ := this
    exact (hmem d hd).2

/-- With depth semi-axis `b = 0` the surface height is `0` everywhere:
inside the footprint ellipse the profile is `0 * sqrt (...) = 0`, outside it
is `0` by definition. -/
lemma surface_z_b_zero (sq : ℚ → ℚ) (a y_semi x y : ℚ) :
    surface_z sq a 0 y_semi x y = 0 := by
  unfold surface_z
  split <;> simp

/-- With `b = 0` and viewing distance `≥ 0.5`, the candidate pipeline leaves
the two eyes at the sampled `x` shifted by `∓ haplo_offset_cm`: in
particular `xR - xL = 2 · haplo_offset_cm` for every candidate. -/
lemma process_candidate_b_zero (sq co si : ℚ → ℚ)
    (a dist iod y_semi aperture off : ℚ) (tu : ℚ × ℚ) (hD : 1 / 2 ≤ dist) :
    (process_candidate sq co si a 0 dist iod y_semi aperture off tu).xL =
        (candidate_point sq co si aperture tu).1 - off ∧
      (process_candidate sq co si a 0 dist iod y_semi aperture off tu).xR =
        (candidate_point sq co si aperture tu).1 + off := by
  unfold process_candidate
  simp only [surface_z_b_zero]
  rw [project_to_screen_zero _ _ _ hD]
  exact ⟨rfl, rfl⟩

/-- Evaluation of the standard concrete run used below: with `n = 1` and the
constant random stream `fun _ => tu`, the first batch has size
`⌈1.6 · 1⌉ = 2`, both candidates process to the same dot `d`; if `d` passes
the bounds mask the loop stops after one batch and the field is `d`'s data
truncated to one entry. -/
lemma generate_rds_const_run (sq co si : ℚ → ℚ) (tu : ℚ × ℚ)
    (a b dist iod y_semi aperture width off : ℚ) (d : DotSample)
    (hd : process_candidate sq co si a b dist iod y_semi aperture off tu = d)
    (hkeep : keep_dot (width / 2) d = true) :
    generate_rds sq co si (fun _ => tu) 2 a b dist iod 1 y_semi aperture
        width off =
      some ⟨[d.xL], [d.xR], [d.y], [d.dcm], [d.dang], [d.dfor]⟩ := by
  unfold generate_rds
  rw [gen_loop]
  rw [if_neg (by simp)]
  have hbatch : draw_batch (fun _ => tu) 0
      (batch_size (1 - List.length ([] : List DotSample))) = [tu, tu] := by
    simp [draw_batch, batch_size, List.range_succ]
  simp only [hbatch, List.nil_append]
  unfold process_batch
  rw [List.map_cons, List.map_cons, List.map_nil, hd]
  rw [List.filter_cons_of_pos hkeep, List.filter_cons_of_pos hkeep,
    List.filter_nil]
  rw [gen_loop]
  rw [if_pos (by simp)]
  simp

/-- **C4 (counterexample).**  The claim asserts `xLeft[i] = xRight[i]` for
*every* call with `b = 0` and offset `0`, but at viewing distance
`D = 3/10 < 0.5` the clamp `depth_from_eye = 0.5` gives perspective scale
`3/5 ≠ 1`, and the returned flat-field dot has `xLeft = -1/5 ≠ 1/5 = xRight`.
The concrete run uses the pairs `(theta, u) = (0, 0)`, where the abstracted
primitives (`sq = id`, `co = const 1`, `si = const 0`) agree with the true
`sqrt`, `cos`, `sin` at every point at which the run queries them
(`sqrt 0 = 0`, `sqrt 1 = 1`, `cos 0 = 1`, `sin 0 = 0`). -/
theorem claim_C4_counterexample :
    generate_rds id (fun _ => 1) (fun _ => 0) (fun _ => (0, 0)) 2 1 0 (3 / 10)
        1 1 1 1 4 0 =
      some ⟨[-(1 / 5)], [1 / 5], [0], [2 / 5], [4 / 3], [-4]⟩ ∧
      ¬ ([-(1 / 5)] : List ℚ) = [1 / 5] := by
  constructor
  · exact generate_rds_const_run id (fun _ => 1) (fun _ => 0) (0, 0) 1 0
      (3 / 10) 1 1 1 4 0 ⟨-(1 / 5), 1 / 5, 0, 2 / 5, 4 / 3, -4⟩
      (by unfold process_candidate candidate_point surface_z project_to_screen
          norm_num [max_def, min_def])
      (by simp only [keep_dot]
          norm_num [abs_eq_max_neg, max_def])
  · simp only [List.cons.injEq, and_true]
    norm_num

/-- **C4 (amended).**  With `b = 0`, haploscope offset `0`, and viewing
distance `D ≥ 0.5` (so the 0.5 cm depth clamp is inactive), every returned
field satisfies `xLeft = xRight` as whole arrays — index by index, exactly:
the zero-disparity fusion-prime property. -/
theorem claim_C4_flat_field_zero_disparity (sq co si : ℚ → ℚ)
    (stream : ℕ → ℚ × ℚ) (fuel : ℕ) (a dist iod : ℚ) (n : ℕ)
    (y_semi aperture width : ℚ) (F : RDSField) (hD : 1 / 2 ≤ dist)
    (h : generate_rds sq co si stream fuel a 0 dist iod n y_semi aperture
      width 0 = some F) :
    F.xL = F.xR := by
  obtain ⟨out, hout, rfl⟩ := generate_rds_eq_some h
  have hmap : out.map DotSample.xL = out.map DotSample.xR := by
    apply List.map_congr_left
    intro d hd
    rcases gen_loop_mem hout hd with hacc | ⟨_, tu, rfl⟩
    · simp at hacc
    · have := process_candidate_b_zero sq co si a dist iod y_semi aperture 0
        tu hD
      rw [this.1, this.2]
      ring
  simp only [hmap]

/-- Witness for `claim_C4_flat_field_zero_disparity`: the same style of run
as the counterexample but at `D = 1 ≥ 0.5`, where the single returned dot is
`(0, 0)` for both eyes. -/
theorem claim_C4_flat_field_zero_disparity_witness :
    (1 : ℚ) / 2 ≤ 1 ∧
      generate_rds id (fun _ => 1) (fun _ => 0) (fun _ => (0, 0)) 2 1 0 1 1 1
          1 1 4 0 =
        some ⟨[0], [0], [0], [0], [0], [0]⟩ ∧
      (RDSField.mk [0] [0] [0] [0] [0] [0]).xL =
        (RDSField.mk [0] [0] [0] [0] [0] [0]).xR := by
  have hrun : generate_rds id (fun _ => 1) (fun _ => 0) (fun _ => (0, 0)) 2 1
      0 1 1 1 1 1 4 0 = some ⟨[0], [0], [0], [0], [0], [0]⟩ :=
    generate_rds_const_run id (fun _ => 1) (fun _ => 0) (0, 0) 1 0 1 1 1 1 4 0
      ⟨0, 0, 0, 0, 0, 0⟩
      (by unfold process_candidate candidate_point surface_z project_to_screen
          norm_num [max_def, min_def])
      (by simp only [keep_dot]
          norm_num)
  exact ⟨by norm_num, hrun,
    claim_C4_flat_field_zero_disparity id (fun _ => 1) (fun _ => 0)
      (fun _ => (0, 0)) 2 1 1 1 1 1 1 4 _ (by norm_num) hrun⟩

/-- **C10.**  The generator's haploscope shift is the session state
`haplo_offset_cm` (the module-level global of source line 59; `generate_rds`
takes no per-call offset parameter), applied as an equal-and-opposite shift
to the two eyes.  Hence for every call with `b = 0` (and `D ≥ 0.5`, so the
depth clamp is inactive) the returned arrays satisfy
`xRight[i] = xLeft[i] + 2 · haplo_offset_cm` at every index: the returned
flat field has zero disparity exactly when the session calibration is `0`. -/
theorem claim_C10_offset_is_session_global (sq co si : ℚ → ℚ)
    (stream : ℕ → ℚ × ℚ) (fuel : ℕ) (a dist iod : ℚ) (n : ℕ)
    (y_semi aperture width haplo_offset_cm : ℚ) (F : RDSField)
    (hD : 1 / 2 ≤ dist)
    (h : generate_rds sq co si stream fuel a 0 dist iod n y_semi aperture
      width haplo_offset_cm = some F) :
    F.xR = F.xL.map fun q => q + 2 * haplo_offset_cm := by
  obtain ⟨out, hout, rfl⟩ := generate_rds_eq_some h
  show (out.map DotSample.xR).take n =
    ((out.map DotSample.xL).take n).map fun q => q + 2 * haplo_offset_cm
  rw [List.map_take, List.map_map]
  congr 1
  apply List.map_congr_left
  intro d hd
  rcases gen_loop_mem hout hd with hacc | ⟨_, tu, rfl⟩
  · simp at hacc
  · have := process_candidate_b_zero sq co si a dist iod y_semi aperture
      haplo_offset_cm tu hD
    rw [Function.comp_apply, this.1, this.2]
    ring

/-- Witness for `claim_C10_offset_is_session_global`: with session offset
`1` and `b = 0` the standard run returns `xL = [-1]`, `xR = [1]`, and indeed
`[1] = [-1 + 2·1]`. -/
theorem claim_C10_offset_is_session_global_witness :
    (1 : ℚ) / 2 ≤ 1 ∧
      generate_rds id (fun _ => 1) (fun _ => 0) (fun _ => (0, 0)) 2 1 0 1 1 1
          1 1 6 1 =
        some ⟨[-1], [1], [0], [0], [0], [0]⟩ ∧
      (RDSField.mk [-1] [1] [0] [0] [0] [0]).xR =
        (RDSField.mk [-1] [1] [0] [0] [0] [0]).xL.map fun q => q + 2 * 1 := by
  have hrun : generate_rds id (fun _ => 1) (fun _ => 0) (fun _ => (0, 0)) 2 1
      0 1 1 1 1 1 6 1 = some ⟨[-1], [1], [0], [0], [0], [0]⟩ :=
    generate_rds_const_run id (fun _ => 1) (fun _ => 0) (0, 0) 1 0 1 1 1 1 6 1
      ⟨-1, 1, 0, 0, 0, 0⟩
      (by unfold process_candidate candidate_point surface_z project_to_screen
          norm_num [max_def, min_def])
      (by simp only [keep_dot]
          norm_num [abs_eq_max_neg, max_def])
  exact ⟨by norm_num, hrun,
    claim_C10_offset_is_session_global id (fun _ => 1) (fun _ => 0)
      (fun _ => (0, 0)) 2 1 1 1 1 1 1 6 1 _ (by norm_num) hrun⟩

/-- The flat loop `gen_loop` is the flattening of the chunk-level loop
`gen_loop_chunks`: the two embeddings of source lines 147-170 agree. -/
lemma gen_loop_eq_flatten_chunks (sq co si : ℚ → ℚ) (stream : ℕ → ℚ × ℚ)
    (a b dist iod : ℚ) (n : ℕ) (y_semi aperture hw off : ℚ) :
    ∀ fuel pos chunks,
      gen_loop sq co si stream a b dist iod n y_semi aperture hw off fuel pos
          chunks.flatten =
        (gen_loop_chunks sq co si stream a b dist iod n y_semi aperture hw
            off fuel pos chunks).map List.flatten := by
  intro fuel
  induction fuel with
  | zero =>
    intro pos chunks
    simp [gen_loop, gen_loop_chunks]
  | succ fuel ih =>
    intro pos chunks
    rw [gen_loop, gen_loop_chunks, List.length_flatten]
    by_cases hguard : n ≤ (chunks.map List.length).sum
    · rw [if_pos hguard, if_pos hguard]
      rfl
    · rw [if_neg hguard, if_neg hguard]
      have h2 := ih
        (pos + batch_size (n - (chunks.map List.length).sum))
        (chunks ++ [process_batch sq co si a b dist iod y_semi aperture hw
          off (draw_batch stream pos
            (batch_size (n - (chunks.map List.length).sum)))])
      rw [List.flatten_append, List.flatten_cons, List.flatten_nil,
        List.append_nil] at h2
      exact h2

/-- Consistency of the two embeddings of `generate_rds`: whenever the
outcome-level model returns a field, the value-level model returns the same
field. -/
lemma generate_rds_outcome_returns_agrees {sq co si : ℚ → ℚ}
    {stream : ℕ → ℚ × ℚ} {fuel : ℕ} {a b dist iod : ℚ} {n : ℕ}
    {y_semi aperture width off : ℚ} {F : RDSField}
    (h : generate_rds_outcome sq co si stream fuel a b dist iod n y_semi
      aperture width off = some (RDSOutcome.returns F)) :
    generate_rds sq co si stream fuel a b dist iod n y_semi aperture width
      off = some F := by
  unfold generate_rds_outcome at h
  rw [Option.map_eq_some'] at h
  obtain ⟨chunks, hchunks, hF⟩ := h
  unfold generate_rds
  have hflat := gen_loop_eq_flatten_chunks sq co si stream a b dist iod n
    y_semi aperture (width / 2) off fuel 0 []
  rw [List.flatten_nil] at hflat
  rw [hflat, hchunks]
  rcases chunks with _ | ⟨c, cs⟩
  · simp [np_concatenate] at hF
  · simp only [List.map_cons, np_concatenate] at hF
    rw [RDSOutcome.returns.injEq] at hF
    simp only [Option.map_some', Option.some.injEq]
    rw [← hF]
    simp [List.map_flatten]

/-- With aperture radius `0` every candidate point is the aperture centre
`(0, 0)` — whatever the random pair and the `sqrt`/`cos`/`sin` — and with
`b = 0`, offset `0` and `dist ≥ 0.5` it processes to the all-zero dot. -/
lemma process_candidate_zero_aperture (sq co si : ℚ → ℚ)
    (a dist iod y_semi : ℚ) (tu : ℚ × ℚ) (hD : 1 / 2 ≤ dist) :
    process_candidate sq co si a 0 dist iod y_semi 0 0 tu =
      ⟨0, 0, 0, 0, 0, 0⟩ := by
  unfold process_candidate candidate_point
  simp only [zero_mul, surface_z_b_zero]
  rw [project_to_screen_zero _ _ _ hD]
  simp

/-- A call with the invalid aperture radius `0` (and `n = 1`, `b = 0`,
offset `0`, `width = 4`, `dist ≥ 0.5`) raises nothing and returns a normal
one-dot field, for *every* random stream and every `sqrt`/`cos`/`sin`. -/
lemma generate_rds_outcome_zero_aperture (sq co si : ℚ → ℚ)
    (stream : ℕ → ℚ × ℚ) (fuel : ℕ) (a dist iod y_semi : ℚ)
    (hfuel : 2 ≤ fuel) (hD : 1 / 2 ≤ dist) :
    generate_rds_outcome sq co si stream fuel a 0 dist iod 1 y_semi 0 4 0 =
      some (RDSOutcome.returns ⟨[0], [0], [0], [0], [0], [0]⟩) := by
  obtain ⟨m, rfl⟩ : ∃ m, fuel = m + 2 := ⟨fuel - 2, by omega⟩
  have hpc : ∀ tu, process_candidate sq co si a 0 dist iod y_semi 0 0 tu =
      ⟨0, 0, 0, 0, 0, 0⟩ :=
    fun tu => process_candidate_zero_aperture sq co si a dist iod y_semi tu hD
  have hkeep : keep_dot ((4 : ℚ) / 2)
      (⟨0, 0, 0, 0, 0, 0⟩ : DotSample) = true := by
    simp only [keep_dot]
    norm_num
  unfold generate_rds_outcome
  rw [gen_loop_chunks]
  rw [if_neg (by simp)]
  have hbatch : draw_batch stream 0 (batch_size
      (1 - (List.map List.length ([] : List (List DotSample))).sum)) =
      [stream 0, stream 1] := by
    simp [draw_batch, batch_size, List.range_succ]
  simp only [hbatch, List.nil_append]
  unfold process_batch
  rw [List.map_cons, List.map_cons]
  simp only [List.map_nil, hpc]
  rw [List.filter_cons_of_pos hkeep, List.filter_cons_of_pos hkeep,
    List.filter_nil]
  rw [gen_loop_chunks]
  rw [if_pos (by simp)]
  simp [np_concatenate]

/-- A call with `n = 0` reaches source line 172 with empty chunk lists
(the `while` body never ran), so `np.concatenate([])` raises `ValueError` —
for arbitrary values of every other parameter. -/
lemma generate_rds_outcome_n_zero (sq co si : ℚ → ℚ) (stream : ℕ → ℚ × ℚ)
    (fuel : ℕ) (a b dist iod y_semi aperture width off : ℚ)
    (hfuel : 1 ≤ fuel) :
    generate_rds_outcome sq co si stream fuel a b dist iod 0 y_semi aperture
      width off = some RDSOutcome.valueError := by
  obtain ⟨m, rfl⟩ : ∃ m, fuel = m + 1 := ⟨fuel - 1, by omega⟩
  unfold generate_rds_outcome
  rw [gen_loop_chunks, if_pos (Nat.zero_le _)]
  simp [np_concatenate]

/-- **C7 (counterexample).**  The claim asserts that every call with a
non-positive parameter — `aperture_radius ≤ 0` among them — raises an
invalid-parameter error before any sampling takes place.  The source
validates nothing: this call with `aperture_radius = 0` samples, raises no
error, and returns a normal field of `n = 1` aperture-centre dot. -/
theorem claim_C7_counterexample :
    (0 : ℚ) ≤ 0 ∧
      generate_rds_outcome id (fun _ => 1) (fun _ => 0) (fun _ => (0, 0)) 2 1
          0 1 1 1 1 0 4 0 =
        some (RDSOutcome.returns ⟨[0], [0], [0], [0], [0], [0]⟩) :=
  ⟨le_refl 0,
    generate_rds_outcome_zero_aperture id (fun _ => 1) (fun _ => 0)
      (fun _ => (0, 0)) 2 1 1 1 1 (le_refl 2) (by norm_num)⟩

/-- **C7 (amended).**  The generator performs no invalid-parameter
validation.  (i) An invalid aperture (`aperture_radius = 0`) raises
nothing: for every random stream and every `sqrt`/`cos`/`sin`, sampling
proceeds and the call returns a normal field of aperture-centre dots
(here `n = 1`, `b = 0`, offset `0`).  (ii) The only failure on a
non-positive input is incidental, not a fail-fast check: with `n = 0` the
`while` body never runs, the chunk lists stay empty, and
`np.concatenate([])` at source line 172 raises `ValueError`, whatever the
values of every other parameter. -/
theorem claim_C7_no_invalid_parameter_validation (sq co si : ℚ → ℚ)
    (stream : ℕ → ℚ × ℚ) (fuel : ℕ) (a dist iod y_semi : ℚ)
    (a' b' dist' iod' y_semi' aperture' width' off' : ℚ)
    (hfuel : 2 ≤ fuel) (hD : 1 / 2 ≤ dist) :
    generate_rds_outcome sq co si stream fuel a 0 dist iod 1 y_semi 0 4 0 =
        some (RDSOutcome.returns ⟨[0], [0], [0], [0], [0], [0]⟩) ∧
      generate_rds_outcome sq co si stream fuel a' b' dist' iod' 0 y_semi'
          aperture' width' off' =
        some RDSOutcome.valueError :=
  ⟨generate_rds_outcome_zero_aperture sq co si stream fuel a dist iod y_semi
      hfuel hD,
    generate_rds_outcome_n_zero sq co si stream fuel a' b' dist' iod'
      y_semi' aperture' width' off' (by omega)⟩

/-- Witness for `claim_C7_no_invalid_parameter_validation`: part (i) at the
experiment's geometry with `aperture = 0`; part (ii) at the experiment's
full parameter set with `n = 0`. -/
theorem claim_C7_no_invalid_parameter_validation_witness :
    2 ≤ 2 ∧ (1 : ℚ) / 2 ≤ 85 ∧
      (generate_rds_outcome id (fun _ => 1) (fun _ => 0) (fun _ => (0, 0)) 2
          (11 / 2) 0 85 (13 / 2) 1 6 0 4 0 =
          some (RDSOutcome.returns ⟨[0], [0], [0], [0], [0], [0]⟩) ∧
        generate_rds_outcome id (fun _ => 1) (fun _ => 0) (fun _ => (0, 0)) 2
            (11 / 2) (199 / 20) 85 (13 / 2) 0 6 10 70 0 =
          some RDSOutcome.valueError) :=
  ⟨le_refl 2, by norm_num,
    claim_C7_no_invalid_parameter_validation id (fun _ => 1) (fun _ => 0)
      (fun _ => (0, 0)) 2 (11 / 2) 85 (13 / 2) 6 (11 / 2) (199 / 20) 85
      (13 / 2) 6 10 70 0 (le_refl 2) (by norm_num)⟩

/-- With a negative half-width the bounds mask of source line 166 rejects
every candidate (`|xL| ≥ 0 > half_width`), so every batch keeps nothing. -/
lemma process_batch_eq_nil_of_neg (sq co si : ℚ → ℚ)
    (a b dist iod y_semi aperture hw off : ℚ) (hhw : hw < 0)
    (tus : List (ℚ × ℚ)) :
    process_batch sq co si a b dist iod y_semi aperture hw off tus = [] := by
  unfold process_batch
  rw [List.filter_eq_nil_iff]
  intro d _
  simp only [keep_dot, Bool.and_eq_true, decide_eq_true_eq, not_and]
  intro h1
  exact absurd h1 (not_le.2 (lt_of_lt_of_le hhw (abs_nonneg _)))

/-- With a negative half-width and `n ≥ 1`, the sampling loop makes no
progress in any iteration and therefore never returns, for *any* amount of
fuel: the source's `while` loop runs forever. -/
lemma gen_loop_none_of_neg (sq co si : ℚ → ℚ) (stream : ℕ → ℚ × ℚ)
    (a b dist iod : ℚ) (n : ℕ) (y_semi aperture hw off : ℚ) (hhw : hw < 0)
    (hn : 1 ≤ n) :
    ∀ fuel pos, gen_loop sq co si stream a b dist iod n y_semi aperture hw
      off fuel pos [] = none := by
  intro fuel
  induction fuel with
  | zero => intro pos; simp [gen_loop]
  | succ fuel ih =>
    intro pos
    rw [gen_loop]
    rw [if_neg (by simp only [List.length_nil]; omega)]
    simp only [process_batch_eq_nil_of_neg sq co si a b dist iod y_semi
      aperture hw off hhw, List.append_nil]
    exact ih _

/-- **C8 (counterexample).**  At a concrete configuration whose bounds check
no point can satisfy, the generator does not terminate with an error: it is
still running after every number of batches. -/
theorem claim_C8_counterexample : rds_unsatisfiable_bounds_never_returns := by
  intro fuel
  unfold generate_rds
  rw [gen_loop_none_of_neg id (fun _ => 1) (fun _ => 0) (fun _ => (0, 0))
    (11 / 2) (199 / 20) 85 (13 / 2) 1500 6 10 ((-1 : ℚ) / 2) 0 (by norm_num)
    (by omega)]
  rfl

/-- **C8 (amended).**  When the bounds check is unsatisfiable (here:
`width < 0`, so `|xL| ≤ width/2` rejects every candidate) and `n ≥ 1`, the
generator does *not* raise a configuration error and its sampling loop is
*not* bounded: it simply never terminates — after any number `fuel` of batch
iterations it still has not returned. -/
theorem claim_C8_no_config_error_loops_forever (sq co si : ℚ → ℚ)
    (stream : ℕ → ℚ × ℚ) (fuel : ℕ) (a b dist iod : ℚ) (n : ℕ)
    (y_semi aperture width off : ℚ) (hwidth : width < 0) (hn : 1 ≤ n) :
    generate_rds sq co si stream fuel a b dist iod n y_semi aperture width
      off = none := by
  unfold generate_rds
  rw [gen_loop_none_of_neg sq co si stream a b dist iod n y_semi aperture
    (width / 2) off (by linarith) hn]
  rfl

/-- Witness for `claim_C8_no_config_error_loops_forever` at `width = -2`,
`n = 3`, `fuel = 5`. -/
theorem claim_C8_no_config_error_loops_forever_witness :
    (-2 : ℚ) < 0 ∧ 1 ≤ 3 ∧
      generate_rds id (fun _ => 1) (fun _ => 0) (fun _ => (0, 0)) 5 1 1 1 1 3
          1 1 (-2) 0 =
        none :=
  ⟨by norm_num, by omega,
    claim_C8_no_config_error_loops_forever id (fun _ => 1) (fun _ => 0)
      (fun _ => (0, 0)) 5 1 1 1 1 3 1 1 (-2) 0 (by norm_num) (by omega)⟩

/-- Witness for `claim_C1_generate_rds_lengths`: a concrete returning run
with `n = 1` yields six arrays of length exactly `1`. -/
theorem claim_C1_generate_rds_lengths_witness :
    1 ≤ 1 ∧
      ((RDSField.mk [0] [0] [0] [0] [0] [0]).xL.length = 1 ∧
        (RDSField.mk [0] [0] [0] [0] [0] [0]).xR.length = 1 ∧
        (RDSField.mk [0] [0] [0] [0] [0] [0]).y.length = 1 ∧
        (RDSField.mk [0] [0] [0] [0] [0] [0]).dcm.length = 1 ∧
        (RDSField.mk [0] [0] [0] [0] [0] [0]).dang.length = 1 ∧
        (RDSField.mk [0] [0] [0] [0] [0] [0]).dfor.length = 1) :=
  ⟨le_refl 1,
    claim_C1_generate_rds_lengths id (fun _ => 1) (fun _ => 0)
      (fun _ => (0, 0)) 2 1 0 1 1 1 1 1 4 0 _ (le_refl 1)
      (generate_rds_const_run id (fun _ => 1) (fun _ => 0) (0, 0) 1 0 1 1 1 1
        4 0 ⟨0, 0, 0, 0, 0, 0⟩
        (by unfold process_candidate candidate_point surface_z
              project_to_screen
            norm_num [max_def, min_def])
        (by simp only [keep_dot]
            norm_num))⟩

/-- Witness for `claim_C6_both_eyes_bounds`: the field returned by a
concrete run with `width = 6` is bounded by `6/2 = 3` in both eyes. -/
theorem claim_C6_both_eyes_bounds_witness :
    bounded_field ((6 : ℚ) / 2) (RDSField.mk [0] [0] [0] [0] [0] [0]) :=
  claim_C6_both_eyes_bounds id (fun _ => 1) (fun _ => 0) (fun _ => (0, 0)) 2
    1 0 1 1 1 1 1 6 0 _
    (generate_rds_const_run id (fun _ => 1) (fun _ => 0) (0, 0) 1 0 1 1 1 1 6
      0 ⟨0, 0, 0, 0, 0, 0⟩
      (by unfold process_candidate candidate_point surface_z project_to_screen
          norm_num [max_def, min_def])
      (by simp only [keep_dot]
          norm_num))

end JohnstonRDS
